import Mathlib

/-! The program mawmakepkg: a verification development.

`mawmakepkg.c` drops the privileges of a process started under sudo back to
the invoking user, sets `PACMAN=maw`, and replaces itself with
`bash -c <hook> makepkg <args...>`, where the hook is a piece of bash text
that redefines `exit` so that the paths of the built packages are appended
to a file.

Conventions of the embedding.

* A C string is a `String`; every `Char` stands for one non-NUL byte, so
  `strlen` is `String.length`.
* A pointer that may be `NULL` is an `Option`.
* System calls are functions on an explicit process state `Proc`. Whether a
  call succeeds is not decided by the program: it is read from a `System`,
  over which every theorem quantifies. Every call is appended to the trace of
  the process together with what it returned.
* `error (1, ...)` of glibc prints a diagnostic and terminates the process
  with the status it was given.
-/

namespace Maw

/-! ## The hook template and `bashHack` -/

/-- The text of the macro `BASH_HACK_TEMPL` (the adjacent literals of the
source, line by line). -/
def BASH_HACK_TEMPL : String :=
  "exit () \x7b\n" ++
  "  if [ \"$1\" -ne 0 ] ; then command exit $1 ; fi\n" ++
  "  fullver=$(get_full_version $epoch $pkgver $pkgrel)\n" ++
  "  for pkg in $\x7bpkgname[@]\x7d ; do\n" ++
  "    for arch in \"$CARCH\" any ; do\n" ++
  "      pkgfile=\"$\x7bPKGDEST\x7d/$\x7bpkg\x7d-$\x7bfullver\x7d-$\x7barch\x7d$\x7bPKGEXT\x7d\"\n" ++
  "      if [ -f \"$pkgfile\" ] ; then\n" ++
  "        echo \"$pkgfile\" >> %s\n" ++
  "      fi\n" ++
  "    done\n" ++
  "  done\n" ++
  "  command exit 0\n" ++
  "\x7d\n" ++
  "source makepkg"

/-- The characters `sprintf` produces for a format and its string arguments:
`%s` is replaced by the next argument, `%%` by a percent sign, every other
character is copied. (These are the only conversions the template can
contain; the terminating NUL is accounted for in `sprintfBytes`.) -/
def sprintf : List Char → List (List Char) → List Char
  | [], _ => []
  | c :: fmt, args =>
    if c = '%' then
      match fmt, args with
      | 's' :: rest, a :: as => a ++ sprintf rest as
      | '%' :: rest, as => '%' :: sprintf rest as
      | rest, as => c :: sprintf rest as
    else c :: sprintf fmt args

/-- The number of bytes `sprintf` stores into its destination buffer: the
formatted characters and the terminating NUL byte. -/
def sprintfBytes (fmt : List Char) (args : List (List Char)) : Nat :=
  (sprintf fmt args).length + 1

/-- The local `hackLen` of `bashHack`: the size handed to `malloc`. -/
def hackLen (tmpFileName : String) : Nat :=
  BASH_HACK_TEMPL.length - 2 + tmpFileName.length

/-- The local `bashStr` of `bashHack` after
`sprintf(bashStr, BASH_HACK_TEMPL, tmpFileName)`: the string `bashHack`
returns. -/
def bashStr (tmpFileName : String) : String :=
  String.mk (sprintf BASH_HACK_TEMPL.data [tmpFileName.data])

/-- The part of the template before its `%s`. -/
def templHead : String :=
  "exit () \x7b\n" ++
  "  if [ \"$1\" -ne 0 ] ; then command exit $1 ; fi\n" ++
  "  fullver=$(get_full_version $epoch $pkgver $pkgrel)\n" ++
  "  for pkg in $\x7bpkgname[@]\x7d ; do\n" ++
  "    for arch in \"$CARCH\" any ; do\n" ++
  "      pkgfile=\"$\x7bPKGDEST\x7d/$\x7bpkg\x7d-$\x7bfullver\x7d-$\x7barch\x7d$\x7bPKGEXT\x7d\"\n" ++
  "      if [ -f \"$pkgfile\" ] ; then\n" ++
  "        echo \"$pkgfile\" >> "

/-- The part of the template after its `%s`. -/
def templTail : String :=
  "\n" ++
  "      fi\n" ++
  "    done\n" ++
  "  done\n" ++
  "  command exit 0\n" ++
  "\x7d\n" ++
  "source makepkg"

/-- The number of positions of `hay` at which `needle` occurs as a
substring. -/
def occurrences (needle hay : List Char) : Nat :=
  ((List.range (hay.length + 1)).filter
    (fun i => decide ((hay.drop i).take needle.length = needle))).length

/-! ## The process and its system calls -/

/-- An entry of the user database (`struct passwd`, the fields the program
reads). -/
structure Passwd where
  pw_name : String
  pw_uid : Nat
  pw_gid : Nat
deriving DecidableEq, Repr

/-- A call the program made, with its arguments and what it returned. -/
inductive Call where
  | getenv (name : String) (result : Option String)
  | getpwnam (name : String) (result : Option Passwd)
  | setgid (gid : Nat) (ret : Int)
  | setuid (uid : Nat) (ret : Int)
  | setenv (name value : String) (overwrite : Int) (ret : Int)
  | calloc (nmemb : Nat) (ok : Bool)
  | malloc (size : Nat) (ok : Bool)
  | execvp (file : String) (args : List (Option String))
deriving DecidableEq, Repr

/-- How the process ends: `exit (status)`, replacement of the process image
by `execvp`, or a store through a null pointer. -/
inductive Outcome where
  | exited (status : Nat)
  | execed (file : String) (argv : List String)
  | segfault
deriving DecidableEq, Repr

/-- What the program does not control: the user database and whether each
system call succeeds. -/
structure System where
  passwd : String → Option Passwd
  setgidOk : Nat → Bool
  setuidOk : Nat → Bool
  setenvOk : String → String → Bool
  callocOk : Nat → Bool
  mallocOk : Nat → Bool
  execvpOk : String → List String → Bool

/-- The state of the process: its environment, its effective group and user
id, and the calls made so far. -/
structure Proc where
  env : String → Option String
  egid : Nat
  euid : Nat
  trace : List Call

/-- Record a call. -/
def Proc.log (p : Proc) (c : Call) : Proc :=
  { p with trace := p.trace ++ [c] }

/-- The process at program start. -/
def Proc.start (env : String → Option String) (egid euid : Nat) : Proc :=
  { env := env, egid := egid, euid := euid, trace := [] }

/-- Model of `getenv`. -/
def getenv (name : String) (p : Proc) : Option String × Proc :=
  (p.env name, p.log (.getenv name (p.env name)))

/-- Model of `getpwnam`. -/
def getpwnam (sys : System) (name : String) (p : Proc) : Option Passwd × Proc :=
  (sys.passwd name, p.log (.getpwnam name (sys.passwd name)))

/-- Model of `setgid`: on success the effective group id is `gid` and 0 is
returned, on failure nothing changes and -1 is returned. -/
def setgid (sys : System) (gid : Nat) (p : Proc) : Int × Proc :=
  if sys.setgidOk gid then (0, { p.log (.setgid gid 0) with egid := gid })
  else (-1, p.log (.setgid gid (-1)))

/-- Model of `setuid`: on success the effective user id is `uid` and 0 is
returned, on failure nothing changes and -1 is returned. -/
def setuid (sys : System) (uid : Nat) (p : Proc) : Int × Proc :=
  if sys.setuidOk uid then (0, { p.log (.setuid uid 0) with euid := uid })
  else (-1, p.log (.setuid uid (-1)))

/-- Model of `setenv`: on success the variable has the value (unless it
exists already and `overwrite` is 0) and 0 is returned, on failure nothing
changes and -1 is returned. -/
def setenv (sys : System) (name value : String) (overwrite : Int) (p : Proc) : Int × Proc :=
  if sys.setenvOk name value then
    (0, { p.log (.setenv name value overwrite 0) with
          env := fun k =>
            if k = name ∧ (overwrite ≠ 0 ∨ p.env name = none) then some value else p.env k })
  else (-1, p.log (.setenv name value overwrite (-1)))

/-- Model of `calloc (nmemb, sizeof (char * ))`: an array of `nmemb` null
pointers, or `NULL`. -/
def calloc (sys : System) (nmemb : Nat) (p : Proc) : Option (List (Option String)) × Proc :=
  if sys.callocOk nmemb then (some (List.replicate nmemb none), p.log (.calloc nmemb true))
  else (none, p.log (.calloc nmemb false))

/-- Model of `malloc`: whether a buffer of `size` bytes was obtained. -/
def malloc (sys : System) (size : Nat) (p : Proc) : Bool × Proc :=
  (sys.mallocOk size, p.log (.malloc size (sys.mallocOk size)))

/-- The argument vector `execvp` reads from a C array: the entries before
the first null pointer. -/
def cArgv : List (Option String) → List String
  | some s :: rest => s :: cArgv rest
  | _ => []

/-- Model of `execvp`: on success the process image is replaced and the call
does not return (`none`), on failure it returns -1. -/
def execvp (sys : System) (file : String) (args : List (Option String)) (p : Proc) :
    Option Int × Proc :=
  if sys.execvpOk file (cArgv args) then (none, p.log (.execvp file args))
  else (some (-1), p.log (.execvp file args))

/-- Model of `error (status, errnum, format, ...)` for the non-zero status
every call of the program passes: the process terminates with `status`. -/
def error (status : Nat) : Outcome := .exited status

/-- The call is `setgid`. -/
def Call.isSetgid : Call → Bool
  | .setgid _ _ => true
  | _ => false

/-- The call is `setuid`. -/
def Call.isSetuid : Call → Bool
  | .setuid _ _ => true
  | _ => false

/-- The call is `setenv`. -/
def Call.isSetenv : Call → Bool
  | .setenv _ _ _ _ => true
  | _ => false

/-- The call is `execvp`. -/
def Call.isExecvp : Call → Bool
  | .execvp _ _ => true
  | _ => false

/-! ## The program -/

/-- Look up user entry for the SUDO_USER. -/
def getSudoUserInfo (sys : System) (p : Proc) : Except Outcome Passwd × Proc :=
  match getenv "SUDO_USER" p with
  | (none, p) => (.error (error 1), p)
  | (some sudoUser, p) =>
    match getpwnam sys sudoUser p with
    | (none, p) => (.error (error 1), p)
    | (some userEntry, p) => (.ok userEntry, p)

/-- Set user and group to the original user, set PACMAN to maw. -/
def setupBuildEnv (sys : System) (p : Proc) : Except Outcome Unit × Proc :=
  match getSudoUserInfo sys p with
  | (.error e, p) => (.error e, p)
  | (.ok pwentry, p) =>
    match setgid sys pwentry.pw_gid p with
    | (ret, p) =>
      if ret = -1 then (.error (error 1), p) else
      match setuid sys pwentry.pw_uid p with
      | (ret, p) =>
        if ret = -1 then (.error (error 1), p) else
        match setenv sys "PACMAN" "maw" 1 p with
        | (ret, p) =>
          if ret = -1 then (.error (error 1), p) else (.ok (), p)

/-- The function `bashHack`: allocate `hackLen` bytes and format the
template into them. -/
def bashHack (sys : System) (tmpFileName : String) (p : Proc) : Except Outcome String × Proc :=
  match malloc sys (hackLen tmpFileName) p with
  | (false, p) => (.error (error 1), p)
  | (true, p) => (.ok (bashStr tmpFileName), p)

/-- The stores of `startMakepkg` into the array `args` after `args[2]` is
known: `args[2]`, `args[3]`, the copying loop and the final null pointer. -/
def fillArgs (args : List (Option String)) (hack : String) (argc : Nat) (argv : List String) :
    List (Option String) :=
  let args := args.set 2 (some hack)
  let args := args.set 3 (some "makepkg")
  let args := (List.range argc).foldl (fun args i => args.set (i + 4) argv[i]?) args
  args.set (argc + 4) none

/-- Runs makepkg by calling bash and overriding parameters. -/
def startMakepkg (sys : System) (tmpPath : String) (argc : Nat) (argv : List String)
    (p : Proc) : Except Outcome Unit × Proc :=
  match calloc sys (argc + 5) p with
  | (none, p) => (.error .segfault, p)
  | (some args, p) =>
    let args := args.set 0 (some "bash")
    let args := args.set 1 (some "-c")
    match bashHack sys tmpPath p with
    | (.error e, p) => (.error e, p)
    | (.ok hack, p) =>
      let args := fillArgs args hack argc argv
      match execvp sys "bash" args p with
      | (none, p) => (.error (.execed "bash" (cArgv args)), p)
      | (some ret, p) => if ret = -1 then (.error (error 1), p) else (.ok (), p)

/-- The function `main`; `argc` is the length of `argv`. -/
def main (sys : System) (argv : List String) (p : Proc) : Outcome × Proc :=
  if argv.length < 2 then (error 1, p) else
  match setupBuildEnv sys p with
  | (.error e, p) => (e, p)
  | (.ok (), p) =>
    match startMakepkg sys (argv.getD 1 "") (argv.length - 2) (argv.drop 2) p with
    | (.error e, p) => (e, p)
    | (.ok (), p) => (error 1, p)

/-- A run of the program from its start: `main` on a process that has made
no call yet. -/
def run (sys : System) (argv : List String) (env : String → Option String) (egid euid : Nat) :
    Outcome × Proc :=
  main sys argv (Proc.start env egid euid)

/-! ## The pointers stored in `args`

The array `args` holds pointers. The process model above records the
strings they point to; the definitions below record, for the same stores,
where each pointer comes from. -/

/-- Where a pointer stored in `args` points: to a string literal of
`startMakepkg`, to the buffer `bashHack` returned, or to the element
`argv[index]` of the argument vector of `main`. -/
inductive Origin where
  | literal (text : String)
  | hack
  | argv (index : Nat)
deriving DecidableEq, Repr

/-- The stores of `startMakepkg` into `args`, by origin of the pointer
stored; `argv` lists the origins of the elements of the `argv` it is
passed. -/
def argOrigins (argc : Nat) (argv : List Origin) : List (Option Origin) :=
  let args := List.replicate (argc + 5) none
  let args := args.set 0 (some (.literal "bash"))
  let args := args.set 1 (some (.literal "-c"))
  let args := args.set 2 (some .hack)
  let args := args.set 3 (some (.literal "makepkg"))
  let args := (List.range argc).foldl (fun args i => args.set (i + 4) argv[i]?) args
  args.set (argc + 4) none

/-- The array `args` of the call `startMakepkg (argv[1], argc - 2, argv + 2)`
of `main`, by origin: `argv + 2` starts at the element `argv[2]`. -/
def mainArgOrigins (argc : Nat) : List (Option Origin) :=
  argOrigins (argc - 2) (((List.range argc).map Origin.argv).drop 2)

/-- The string a pointer points to, in a run of `main` with argument vector
`argv` whose `argv[1]` is `tmpPath`. -/
def Origin.value (tmpPath : String) (argv : List String) : Origin → Option String
  | .literal text => some text
  | .hack => some (bashStr tmpPath)
  | .argv index => argv[index]?

/-! ## The hook: the bash function `exit` of the template

The template is bash text, and the output-file path is pasted into it. Its
function `exit` is embedded as a function of the path, of the first argument
of the call and of what the function reads from the shell that sources
makepkg. IFS has its default value (blank, tab, newline), `echo` does not
interpret its arguments, and the test `[ -f file ]` is a predicate on paths,
the same for the whole call. Where the text is outside what is modelled the
result is `none`. -/

/-- What the function `exit` of the hook reads: the variables of makepkg,
its function `get_full_version` (a function of makepkg, not of this
repository, hence a parameter), the pathname expansion of a word with
pattern characters (the names on disk that match, or the word itself) and
the regular files on disk. -/
structure Shell where
  pkgname : List String
  CARCH : String
  PKGDEST : String
  PKGEXT : String
  epoch : String
  pkgver : String
  pkgrel : String
  get_full_version : List String → String
  glob : String → List String
  isFile : String → Bool

/-- What a call of the function `exit` of the hook does: the file its
redirection names, the lines `echo` appends to that file, and the status the
shell terminates with. -/
structure Exited where
  file : String
  appended : List String
  status : Nat
deriving DecidableEq, Repr

/-- The characters of the default IFS. -/
def isBlank (c : Char) : Bool :=
  c == ' ' || c == '\t' || c == '\n'

/-- Word splitting: the words left of the characters read so far (`word`
holds the characters of the word being read). -/
def fieldsAux : List Char → List Char → List String
  | [], word => if word.isEmpty then [] else [String.mk word]
  | c :: rest, word =>
    if isBlank c then
      if word.isEmpty then fieldsAux rest [] else String.mk word :: fieldsAux rest []
    else fieldsAux rest (word ++ [c])

/-- Word splitting of the value of an unquoted expansion under the default
IFS: the maximal runs without blank, tab or newline; an empty value yields no
word. -/
def fields (value : String) : List String :=
  fieldsAux value.data []

/-- The word has a pattern character, so that pathname expansion applies to
it. -/
def hasPattern (word : String) : Bool :=
  word.data.any (fun c => c == '*' || c == '?' || c == '[')

/-- The words an unquoted expansion of `value` yields: word splitting, then
pathname expansion of the words with pattern characters. -/
def expand (sh : Shell) (value : String) : List String :=
  (fields value).flatMap (fun word => if hasPattern word then sh.glob word else [word])

/-- White space as `strtoimax` skips it. -/
def isSpace (c : Char) : Bool :=
  c == ' ' || c == '\t' || c == '\n' || c == '\x0b' || c == '\x0c' || c == '\r'

/-- The value of a run of decimal digits. -/
def digitsValue (digits : List Char) : Nat :=
  digits.foldl (fun n d => 10 * n + (d.toNat - '0'.toNat)) 0

/-- The integer bash reads from a text where it wants a number (its
`legal_number`): white space, an optional sign, decimal digits, then blanks
or tabs only, and a value that fits 64 bits; `none` otherwise. -/
def legalNumber (text : String) : Option Int :=
  let cs := text.data.dropWhile isSpace
  let negative := cs.head? == some '-'
  let cs := match cs with
    | '-' :: rest => rest
    | '+' :: rest => rest
    | rest => rest
  let digits := cs.takeWhile Char.isDigit
  let rest := cs.dropWhile Char.isDigit
  if digits.isEmpty || !rest.all (fun c => c == ' ' || c == '\t') then none
  else
    let n : Int := if negative then -(digitsValue digits : Int) else (digitsValue digits : Int)
    if -(2 : Int) ^ 63 ≤ n ∧ n < (2 : Int) ^ 63 then some n else none

/-- The test `[ "$1" -ne 0 ]`: true when the text is a number other than 0;
a text that is no number is an error of `[`, on which the branch is not
taken. -/
def testNeZero (arg1 : String) : Bool :=
  match legalNumber arg1 with
  | some n => n != 0
  | none => false

/-- The builtin `command exit n`: the shell terminates, and its status is
the low eight bits of `n`. -/
def commandExit (n : Int) : Nat := (n % 256).toNat

/-- A character that stands for itself in bash text. -/
def plainChar (c : Char) : Bool :=
  c.isAlphanum || c == '/' || c == '.' || c == '_' || c == '-' || c == '+' || c == ',' ||
    c == ':' || c == '@'

/-- What the shell reads in `echo "$pkgfile" >> path` after the `>>`, for a
path of plain characters, blanks and tabs: the first word is the file of the
redirection, further words are further arguments of `echo`. Other paths, and
paths without a word, are not modelled. -/
def redirect (path : String) : Option (String × List String) :=
  if path.data.all (fun c => plainChar c || c == ' ' || c == '\t') then
    match fields path with
    | [] => none
    | file :: extra => some (file, extra)
  else none

/-- The line `echo` writes for its arguments: the arguments, separated by
one blank. -/
def echoLine : List String → String
  | [] => ""
  | [word] => word
  | word :: rest => word ++ " " ++ echoLine rest

/-- The value of `fullver` after
`fullver=$(get_full_version $epoch $pkgver $pkgrel)`. -/
def fullver (sh : Shell) : String :=
  sh.get_full_version ([sh.epoch, sh.pkgver, sh.pkgrel].flatMap (expand sh))

/-- The value given to `pkgfile` in the inner loop. -/
def pkgfile (sh : Shell) (fullver pkg arch : String) : String :=
  sh.PKGDEST ++ "/" ++ pkg ++ "-" ++ fullver ++ "-" ++ arch ++ sh.PKGEXT

/-- The inner loop `for arch in "$CARCH" any`, over the architectures left;
`extra` holds the further arguments of `echo`, `out` the lines appended so
far. -/
def archLoop (sh : Shell) (extra : List String) (fullver pkg : String) :
    List String → List String → List String
  | [], out => out
  | arch :: rest, out =>
    if sh.isFile (pkgfile sh fullver pkg arch) then
      archLoop sh extra fullver pkg rest
        (out ++ [echoLine (pkgfile sh fullver pkg arch :: extra)])
    else archLoop sh extra fullver pkg rest out

/-- The outer loop, over the words left of the expansion of
`pkgname[@]`. -/
def pkgLoop (sh : Shell) (extra : List String) (fullver : String) :
    List String → List String → List String
  | [], out => out
  | pkg :: rest, out =>
    pkgLoop sh extra fullver rest (archLoop sh extra fullver pkg [sh.CARCH, "any"] out)

/-- The function `exit` the hook for `path` defines, called with first
argument `arg1` (empty when the call has no argument). In the branch of
`command exit $1` only the case of one word that is a number is
modelled. -/
def exit (sh : Shell) (path arg1 : String) : Option Exited :=
  match redirect path with
  | none => none
  | some (file, extra) =>
    if testNeZero arg1 then
      match expand sh arg1 with
      | [word] =>
        match legalNumber word with
        | some n => some { file := file, appended := [], status := commandExit n }
        | none => none
      | _ => none
    else
      some { file := file
             appended := pkgLoop sh extra (fullver sh) (sh.pkgname.flatMap (expand sh)) []
             status := commandExit 0 }

/-! ## Concrete systems and shells -/

/-- A system on which the account alice (uid 1000, gid 1000) exists and
every call succeeds. -/
def aliceSystem : System :=
  { passwd := fun name => if name = "alice" then some ⟨"alice", 1000, 1000⟩ else none
    setgidOk := fun _ => true
    setuidOk := fun _ => true
    setenvOk := fun _ _ => true
    callocOk := fun _ => true
    mallocOk := fun _ => true
    execvpOk := fun _ _ => true }

/-- The environment sudo leaves for alice, with PACMAN already set. -/
def aliceEnv : String → Option String :=
  fun name =>
    if name = "SUDO_USER" then some "alice"
    else if name = "PACMAN" then some "pacman"
    else none

/-- The process of a run under sudo for alice: root, with `aliceEnv`. -/
def aliceProc : Proc := Proc.start aliceEnv 0 0

/-- The system `aliceSystem` with `setgid` failing. -/
def setgidFails : System := { aliceSystem with setgidOk := fun _ => false }

/-- The system `aliceSystem` with `setuid` failing. -/
def setuidFails : System := { aliceSystem with setuidOk := fun _ => false }

/-- The system `aliceSystem` with `setenv` failing. -/
def setenvFails : System := { aliceSystem with setenvOk := fun _ _ => false }

/-- An environment without SUDO_USER. -/
def noSudoEnv : String → Option String := fun _ => none

/-- The environment of a run under sudo for a user the database lacks. -/
def ghostEnv : String → Option String :=
  fun name => if name = "SUDO_USER" then some "ghost" else none

/-- The version function of makepkg for a package without epoch:
`pkgver-pkgrel`. -/
def fullVersion : List String → String
  | [pkgver, pkgrel] => pkgver ++ "-" ++ pkgrel
  | [epoch, pkgver, pkgrel] => epoch ++ ":" ++ pkgver ++ "-" ++ pkgrel
  | _ => ""

/-- A build of the package foo 1.0-1 for x86_64: only the x86_64 artifact is
on disk, and no pattern matches a name on disk. -/
def fooShell : Shell :=
  { pkgname := ["foo"]
    CARCH := "x86_64"
    PKGDEST := "/pkgs"
    PKGEXT := ".pkg.tar.xz"
    epoch := ""
    pkgver := "1.0"
    pkgrel := "1"
    get_full_version := fullVersion
    glob := fun word => [word]
    isFile := fun f => f = "/pkgs/foo-1.0-1-x86_64.pkg.tar.xz" }

set_option maxRecDepth 100000 in
theorem templ_split : BASH_HACK_TEMPL = templHead ++ "%s" ++ templTail := by decide

set_option maxRecDepth 100000 in
theorem templ_length : BASH_HACK_TEMPL.length = 361 := by decide

set_option maxRecDepth 100000 in
theorem templHead_length : templHead.length = 300 := by decide

set_option maxRecDepth 100000 in
theorem templTail_length : templTail.length = 59 := by decide

set_option maxRecDepth 100000 in
theorem templHead_no_percent : '%' ∉ templHead.data := by decide

set_option maxRecDepth 100000 in
theorem templTail_no_percent : '%' ∉ templTail.data := by decide

theorem sprintf_append_of_not_mem (l : List Char) (h : '%' ∉ l) (r : List Char)
    (args : List (List Char)) : sprintf (l ++ r) args = l ++ sprintf r args := by
  induction l with
  | nil => rfl
  | cons c l ih =>
    simp only [List.mem_cons, not_or] at h
    have hc : c ≠ '%' := fun e => h.1 e.symm
    rw [List.cons_append, sprintf.eq_def]
    simp only [if_neg hc, ih h.2, List.cons_append]

theorem sprintf_of_not_mem (l : List Char) (h : '%' ∉ l) (args : List (List Char)) :
    sprintf l args = l := by
  have := sprintf_append_of_not_mem l h [] args
  simpa [sprintf] using this

theorem sprintf_percent_s (r a : List Char) (as : List (List Char)) :
    sprintf ('%' :: 's' :: r) (a :: as) = a ++ sprintf r as := by
  rw [sprintf.eq_def]; simp

/-- The string `bashHack` returns is the template with its `%s` replaced by
the file name. -/
theorem bashStr_eq (p : String) : bashStr p = templHead ++ p ++ templTail := by
  have h : BASH_HACK_TEMPL.data = templHead.data ++ ('%' :: 's' :: templTail.data) := by
    rw [templ_split]; simp [String.data_append]
  apply String.ext
  simp only [bashStr, h, String.data_append]
  rw [sprintf_append_of_not_mem _ templHead_no_percent, sprintf_percent_s,
    sprintf_of_not_mem _ templTail_no_percent, List.append_assoc]

theorem bashStr_length (p : String) : (bashStr p).length = 359 + p.length := by
  rw [bashStr_eq, String.length_append, String.length_append, templHead_length, templTail_length]
  omega

theorem hackLen_eq (p : String) : hackLen p = 359 + p.length := by
  simp [hackLen, templ_length]

theorem sprintfBytes_eq (p : String) :
    sprintfBytes BASH_HACK_TEMPL.data [p.data] = 360 + p.length := by
  have h : (sprintf BASH_HACK_TEMPL.data [p.data]).length = 359 + p.length := bashStr_length p
  rw [sprintfBytes, h]
  omega


/-! ## Occurrences of a substring -/

theorem occurs_at_iff (needle hay : List Char) (i : Nat) (hi : i ≤ hay.length) :
    (hay.drop i).take needle.length = needle ↔
      ∃ u v, hay = u ++ needle ++ v ∧ u.length = i := by
  constructor
  · intro h
    refine ⟨hay.take i, (hay.drop i).drop needle.length, ?_, ?_⟩
    · conv_lhs => rw [← List.take_append_drop i hay]
      rw [List.append_assoc]
      congr 1
      conv_lhs => rw [← List.take_append_drop needle.length (hay.drop i)]
      rw [h]
    · simp [hi]
  · rintro ⟨u, v, rfl, rfl⟩
    simp

theorem first_split_unique {α : Type} (x : α) :
    ∀ (s₁ s₂ t₁ t₂ : List α), x ∉ s₁ → x ∉ s₂ → s₁ ++ x :: t₁ = s₂ ++ x :: t₂ → s₁ = s₂
  | [], [], _, _, _, _, _ => rfl
  | [], b :: s₂, _, _, _, h₂, h => by
    simp only [List.nil_append, List.cons_append, List.cons.injEq] at h
    exact absurd (by simp [h.1]) h₂
  | a :: s₁, [], _, _, h₁, _, h => by
    simp only [List.nil_append, List.cons_append, List.cons.injEq] at h
    exact absurd (by simp [h.1]) h₁
  | a :: s₁, b :: s₂, t₁, t₂, h₁, h₂, h => by
    simp only [List.cons_append, List.cons.injEq] at h
    simp only [List.mem_cons, not_or] at h₁ h₂
    rw [h.1, first_split_unique x s₁ s₂ t₁ t₂ h₁.2 h₂.2 h.2]

theorem occurs_once_position (x : Char) (hd p tl u v : List Char) (hp : x ∈ p)
    (hh : x ∉ hd) (ht : x ∉ tl) (e : hd ++ p ++ tl = u ++ p ++ v) : u.length = hd.length := by
  have hc := congrArg (List.count x) e
  simp only [List.count_append, List.count_eq_zero_of_not_mem hh,
    List.count_eq_zero_of_not_mem ht] at hc
  have hu : x ∉ u := by
    intro hm
    have := List.count_pos_iff.2 hm
    omega
  obtain ⟨a, b, rfl, ha⟩ := List.eq_append_cons_of_mem hp
  have e2 : (hd ++ a) ++ x :: (b ++ tl) = (u ++ a) ++ x :: (b ++ v) := by
    simpa [List.append_assoc] using e
  have := first_split_unique x (hd ++ a) (u ++ a) _ _ (by simp [hh, ha]) (by simp [hu, ha]) e2
  have := congrArg List.length this
  simp at this
  omega

theorem occurrences_pos (hd p tl : List Char) : 1 ≤ occurrences p (hd ++ p ++ tl) := by
  unfold occurrences
  apply List.length_pos_of_mem (a := hd.length)
  rw [List.mem_filter]
  refine ⟨List.mem_range.2 (by simp; omega), ?_⟩
  simp

theorem occurrences_eq_one (x : Char) (hd p tl : List Char) (hp : x ∈ p)
    (hh : x ∉ hd) (ht : x ∉ tl) : occurrences p (hd ++ p ++ tl) = 1 := by
  unfold occurrences
  have hcongr : (List.range ((hd ++ p ++ tl).length + 1)).filter
      (fun i => decide (((hd ++ p ++ tl).drop i).take p.length = p))
      = (List.range ((hd ++ p ++ tl).length + 1)).filter (fun i => i == hd.length) := by
    apply List.filter_congr
    intro i hi
    have hi2 : i ≤ (hd ++ p ++ tl).length := by
      have := List.mem_range.1 hi; omega
    by_cases hx : i = hd.length
    · subst hx; simp
    · have : ¬ (((hd ++ p ++ tl).drop i).take p.length = p) := by
        intro h
        obtain ⟨u, v, e, hl⟩ := (occurs_at_iff p _ i hi2).1 h
        exact hx (hl ▸ occurs_once_position x hd p tl u v hp hh ht e)
      rw [decide_eq_false this]
      exact (beq_eq_false_iff_ne.2 hx).symm
  rw [hcongr, ← List.countP_eq_length_filter, ← List.count_eq_countP]
  exact List.count_eq_one_of_mem (List.nodup_range _) (List.mem_range.2 (by simp; omega))

/-! ## The argument array -/

theorem cArgv_map_some (a : List String) (r : List (Option String)) :
    cArgv (a.map some ++ none :: r) = a := by
  induction a with
  | nil => rfl
  | cons x a ih => simp [cArgv, ih]

theorem copy_loop {α : Type} (hd : List (Option α)) (a : List α) :
    ∀ k, k ≤ a.length →
      (List.range k).foldl (fun args i => args.set (i + hd.length) a[i]?)
          (hd ++ List.replicate (a.length + 1) none)
        = hd ++ (a.take k).map some ++ List.replicate (a.length + 1 - k) none
  | 0, _ => by simp
  | k + 1, hk => by
    have hk1 : k < a.length := hk
    rw [List.range_succ, List.foldl_append, copy_loop hd a k (Nat.le_of_lt hk1)]
    have e1 : a.length + 1 - k = (a.length - k) + 1 := by omega
    have e2 : a.length + 1 - (k + 1) = a.length - k := by omega
    have e3 : (hd ++ List.map some (List.take k a)).length ≤ k + hd.length := by
      simp [List.length_take]; omega
    have e4 : k + hd.length - (hd ++ List.map some (List.take k a)).length = 0 := by
      simp [List.length_take]; omega
    simp only [List.foldl_cons, List.foldl_nil]
    rw [e1, e2, List.replicate_succ, List.set_append_right _ _ e3, e4, List.set_cons_zero,
      List.take_succ, List.getElem?_eq_getElem hk1]
    simp only [Option.toList, List.map_append, List.map_cons, List.map_nil, List.append_assoc,
      List.cons_append, List.nil_append]

theorem fillArgs_eq (hack : String) (a : List String) :
    fillArgs (((List.replicate (a.length + 5) none).set 0 (some "bash")).set 1 (some "-c"))
        hack a.length a
      = [some "bash", some "-c", some hack, some "makepkg"] ++ a.map some ++ [none] := by
  have h0 : ((((List.replicate (a.length + 5) (none : Option String)).set 0 (some "bash")).set 1
      (some "-c")).set 2 (some hack)).set 3 (some "makepkg")
      = [some "bash", some "-c", some hack, some "makepkg"] ++ List.replicate (a.length + 1) none := by
    rfl
  have h1 := copy_loop [some "bash", some "-c", some hack, some "makepkg"] a a.length (Nat.le_refl _)
  simp only [List.length_cons, List.length_nil, Nat.zero_add, Nat.reduceAdd] at h1
  unfold fillArgs
  simp only [h0, h1]
  simp


theorem cArgv_args (hack : String) (a : List String) :
    cArgv ([some "bash", some "-c", some hack, some "makepkg"] ++ a.map some ++ [none])
      = ["bash", "-c", hack, "makepkg"] ++ a := by
  simp [cArgv, cArgv_map_some]

theorem main_noarg (sys : System) (argv : List String) (p : Proc) (h : argv.length < 2) :
    main sys argv p = (.exited 1, p) := by
  simp [main, h, error]

/-- Every run of `main` with at least the file argument is one of nine
runs, told apart by the first call that fails. -/
theorem main_cases (sys : System) (prog tmp : String) (rest : List String) (p : Proc) :
    (p.env "SUDO_USER" = none ∧
      (main sys (prog :: tmp :: rest) p).1 = .exited 1 ∧
      (main sys (prog :: tmp :: rest) p).2.trace = p.trace ++ [.getenv "SUDO_USER" none]) ∨
    (∃ u, p.env "SUDO_USER" = some u ∧ sys.passwd u = none ∧
      (main sys (prog :: tmp :: rest) p).1 = .exited 1 ∧
      (main sys (prog :: tmp :: rest) p).2.trace =
        p.trace ++ [.getenv "SUDO_USER" (some u), .getpwnam u none]) ∨
    (∃ u pw, p.env "SUDO_USER" = some u ∧ sys.passwd u = some pw ∧
      ((sys.setgidOk pw.pw_gid = false ∧
        (main sys (prog :: tmp :: rest) p).1 = .exited 1 ∧
        (main sys (prog :: tmp :: rest) p).2.trace =
          p.trace ++ [.getenv "SUDO_USER" (some u), .getpwnam u (some pw),
            .setgid pw.pw_gid (-1)]) ∨
       (sys.setgidOk pw.pw_gid = true ∧ sys.setuidOk pw.pw_uid = false ∧
        (main sys (prog :: tmp :: rest) p).1 = .exited 1 ∧
        (main sys (prog :: tmp :: rest) p).2.trace =
          p.trace ++ [.getenv "SUDO_USER" (some u), .getpwnam u (some pw),
            .setgid pw.pw_gid 0, .setuid pw.pw_uid (-1)]) ∨
       (sys.setgidOk pw.pw_gid = true ∧ sys.setuidOk pw.pw_uid = true ∧
        sys.setenvOk "PACMAN" "maw" = false ∧
        (main sys (prog :: tmp :: rest) p).1 = .exited 1 ∧
        (main sys (prog :: tmp :: rest) p).2.trace =
          p.trace ++ [.getenv "SUDO_USER" (some u), .getpwnam u (some pw),
            .setgid pw.pw_gid 0, .setuid pw.pw_uid 0, .setenv "PACMAN" "maw" 1 (-1)]) ∨
       (sys.setgidOk pw.pw_gid = true ∧ sys.setuidOk pw.pw_uid = true ∧
        sys.setenvOk "PACMAN" "maw" = true ∧
        (main sys (prog :: tmp :: rest) p).2.egid = pw.pw_gid ∧
        (main sys (prog :: tmp :: rest) p).2.euid = pw.pw_uid ∧
        (main sys (prog :: tmp :: rest) p).2.env "PACMAN" = some "maw" ∧
        ((sys.callocOk (rest.length + 5) = false ∧
          (main sys (prog :: tmp :: rest) p).1 = .segfault ∧
          (main sys (prog :: tmp :: rest) p).2.trace =
            p.trace ++ [.getenv "SUDO_USER" (some u), .getpwnam u (some pw),
              .setgid pw.pw_gid 0, .setuid pw.pw_uid 0, .setenv "PACMAN" "maw" 1 0,
              .calloc (rest.length + 5) false]) ∨
         (sys.callocOk (rest.length + 5) = true ∧ sys.mallocOk (hackLen tmp) = false ∧
          (main sys (prog :: tmp :: rest) p).1 = .exited 1 ∧
          (main sys (prog :: tmp :: rest) p).2.trace =
            p.trace ++ [.getenv "SUDO_USER" (some u), .getpwnam u (some pw),
              .setgid pw.pw_gid 0, .setuid pw.pw_uid 0, .setenv "PACMAN" "maw" 1 0,
              .calloc (rest.length + 5) true, .malloc (hackLen tmp) false]) ∨
         (sys.callocOk (rest.length + 5) = true ∧ sys.mallocOk (hackLen tmp) = true ∧
          (main sys (prog :: tmp :: rest) p).2.trace =
            p.trace ++ [.getenv "SUDO_USER" (some u), .getpwnam u (some pw),
              .setgid pw.pw_gid 0, .setuid pw.pw_uid 0, .setenv "PACMAN" "maw" 1 0,
              .calloc (rest.length + 5) true, .malloc (hackLen tmp) true,
              .execvp "bash" ([some "bash", some "-c", some (bashStr tmp), some "makepkg"]
                ++ rest.map some ++ [none])] ∧
          ((sys.execvpOk "bash" (["bash", "-c", bashStr tmp, "makepkg"] ++ rest) = false ∧
            (main sys (prog :: tmp :: rest) p).1 = .exited 1) ∨
           (sys.execvpOk "bash" (["bash", "-c", bashStr tmp, "makepkg"] ++ rest) = true ∧
            (main sys (prog :: tmp :: rest) p).1 =
              .execed "bash" (["bash", "-c", bashStr tmp, "makepkg"] ++ rest)))))))) := by
  have hlen : ¬ (rest.length + 1 + 1 < 2) := by omega
  cases hE : p.env "SUDO_USER" with
  | none =>
    left
    simp [main, setupBuildEnv, getSudoUserInfo, getenv, Proc.log, error, hE, hlen]
  | some u =>
    right
    cases hD : sys.passwd u with
    | none =>
      left
      exact ⟨u, rfl, hD, by
        simp [main, setupBuildEnv, getSudoUserInfo, getenv, getpwnam, Proc.log, error, hE, hD,
          hlen]⟩
    | some pw =>
      right
      refine ⟨u, pw, rfl, hD, ?_⟩
      have hargs := fillArgs_eq (bashStr tmp) rest
      have hcargs : cArgv (some "bash" :: some "-c" :: some (bashStr tmp) :: some "makepkg" ::
          (rest.map some ++ [none])) = "bash" :: "-c" :: bashStr tmp :: "makepkg" :: rest := by
        simpa using cArgv_args (bashStr tmp) rest
      cases hG : sys.setgidOk pw.pw_gid <;> cases hU : sys.setuidOk pw.pw_uid <;>
      cases hS : sys.setenvOk "PACMAN" "maw" <;> cases hC : sys.callocOk (rest.length + 5) <;>
      cases hM : sys.mallocOk (hackLen tmp) <;>
      cases hX : sys.execvpOk "bash" ("bash" :: "-c" :: bashStr tmp :: "makepkg" :: rest) <;>
      simp [main, setupBuildEnv, getSudoUserInfo, getenv, getpwnam, setgid, setuid, setenv,
        startMakepkg, calloc, bashHack, malloc, execvp, Proc.log, error,
        hE, hD, hG, hU, hS, hC, hM, hX, hargs, hcargs, hlen]

/-! ## The origins of the pointers in `args` -/

theorem argOrigins_eq (argv : List Origin) :
    argOrigins argv.length argv
      = [some (.literal "bash"), some (.literal "-c"), some .hack, some (.literal "makepkg")]
          ++ argv.map some ++ [none] := by
  have h0 : ((((List.replicate (argv.length + 5) (none : Option Origin)).set 0
      (some (.literal "bash"))).set 1 (some (.literal "-c"))).set 2 (some .hack)).set 3
      (some (.literal "makepkg"))
      = [some (.literal "bash"), some (.literal "-c"), some .hack, some (.literal "makepkg")]
          ++ List.replicate (argv.length + 1) none := by
    rfl
  have h1 := copy_loop
    [some (Origin.literal "bash"), some (.literal "-c"), some .hack, some (.literal "makepkg")]
    argv argv.length (Nat.le_refl _)
  simp only [List.length_cons, List.length_nil, Nat.zero_add, Nat.reduceAdd] at h1
  unfold argOrigins
  simp only [h0, h1]
  simp

theorem range_drop_two (n : Nat) :
    ((List.range (n + 2)).map Origin.argv).drop 2
      = (List.range n).map (fun i => Origin.argv (i + 2)) := by
  rw [List.range_succ_eq_map, List.range_succ_eq_map]
  simp [List.map_map, Function.comp_def]

theorem mainArgOrigins_eq (n : Nat) :
    mainArgOrigins (n + 2)
      = [some (.literal "bash"), some (.literal "-c"), some .hack, some (.literal "makepkg")]
          ++ (List.range n).map (fun i => some (Origin.argv (i + 2))) ++ [none] := by
  unfold mainArgOrigins
  rw [range_drop_two]
  have hl : ((List.range n).map (fun i => Origin.argv (i + 2))).length = n := by simp
  have h := argOrigins_eq ((List.range n).map (fun i => Origin.argv (i + 2)))
  rw [hl] at h
  rw [Nat.add_sub_cancel, h]
  simp [List.map_map, Function.comp_def]

theorem map_getElem?_range (a : List String) :
    (List.range a.length).map (fun i => a[i]?) = a.map some := by
  apply List.ext_getElem?
  intro j
  by_cases hj : j < a.length
  · simp [hj, List.getElem?_eq_getElem]
  · have hle : a.length ≤ j := Nat.le_of_not_lt hj
    have h1 : (List.range a.length)[j]? = none :=
      List.getElem?_eq_none (by simpa using hle)
    have h2 : a[j]? = none := List.getElem?_eq_none hle
    simp only [List.getElem?_map, h1, h2, Option.map_none']

theorem mainArgOrigins_value (prog p : String) (a : List String) :
    (mainArgOrigins (a.length + 2)).map (fun o => o.bind (Origin.value p (prog :: p :: a)))
      = [some "bash", some "-c", some (bashStr p), some "makepkg"] ++ a.map some ++ [none] := by
  rw [mainArgOrigins_eq]
  simp [Origin.value, List.map_map, Function.comp_def, map_getElem?_range]

/-! ## Facts about the hook -/

theorem exit_nonzero (sh : Shell) (path file : String) (extra : List String)
    (hp : redirect path = some (file, extra)) (arg1 : String) (n : Int)
    (hn : legalNumber arg1 = some n) (h0 : n ≠ 0) (hw : expand sh arg1 = [arg1]) :
    exit sh path arg1 = some { file := file, appended := [], status := (n % 256).toNat } := by
  have ht : testNeZero arg1 = true := by simp [testNeZero, hn, h0]
  simp [exit, hp, ht, hw, hn, commandExit]

set_option maxRecDepth 100000 in
theorem decimal_text (c : Nat) (hc : c < 256) :
    legalNumber (toString c) = some (c : Int) ∧ fields (toString c) = [toString c] ∧
      hasPattern (toString c) = false := by
  revert c
  decide

theorem fieldsAux_of_no_blank :
    ∀ (cs word : List Char), (∀ c ∈ cs, isBlank c = false) →
      fieldsAux cs word = if (word ++ cs).isEmpty then [] else [String.mk (word ++ cs)]
  | [], word, _ => by simp [fieldsAux]
  | c :: rest, word, h => by
    have hc : isBlank c = false := h c (by simp)
    have hr : ∀ d ∈ rest, isBlank d = false := fun d hd => h d (by simp [hd])
    rw [fieldsAux]
    simp only [hc, Bool.false_eq_true, if_false]
    rw [fieldsAux_of_no_blank rest (word ++ [c]) hr]
    simp

/-- The unquoted expansion leaves a non-empty word without blank, tab,
newline or pattern character as it is. -/
theorem expand_of_word (sh : Shell) (word : String) (hne : word ≠ "")
    (hblank : ∀ c ∈ word.data, isBlank c = false)
    (hpattern : ∀ c ∈ word.data, c ≠ '*' ∧ c ≠ '?' ∧ c ≠ '[') :
    expand sh word = [word] := by
  have hdata : word.data ≠ [] := fun h => hne (String.ext h)
  have hf : fields word = [word] := by
    rw [fields, fieldsAux_of_no_blank word.data [] hblank]
    simp [hdata]
  have hp : hasPattern word = false := by
    simp only [hasPattern, List.any_eq_false]
    intro c hc
    have := hpattern c hc
    simp [this.1, this.2.1, this.2.2]
  simp [expand, hf, hp]

theorem not_blank_of_plainChar (c : Char) (h : plainChar c = true) : isBlank c = false := by
  cases hb : isBlank c with
  | false => rfl
  | true =>
    simp only [isBlank, Bool.or_eq_true, beq_iff_eq] at hb
    rcases hb with (rfl | rfl) | rfl <;> exact absurd h (by decide)

/-- The shell reads a non-empty path of plain characters as the one word it
is. -/
theorem redirect_of_plain (path : String) (hne : path ≠ "")
    (hplain : ∀ c ∈ path.data, plainChar c = true) : redirect path = some (path, []) := by
  have hdata : path.data ≠ [] := fun h => hne (String.ext h)
  have hf : fields path = [path] := by
    rw [fields, fieldsAux_of_no_blank path.data []
      (fun c hc => not_blank_of_plainChar c (hplain c hc))]
    simp [hdata]
  have hall : (path.data.all fun c => plainChar c || c == ' ' || c == '\t') = true := by
    simp only [List.all_eq_true]
    intro c hc
    simp [hplain c hc]
  simp [redirect, hall, hf]

/-- The run in which everything up to `execvp` succeeds. -/
theorem main_success (sys : System) (prog tmp : String) (rest : List String) (p : Proc)
    (u : String) (pw : Passwd) (hE : p.env "SUDO_USER" = some u)
    (hD : sys.passwd u = some pw) (hG : sys.setgidOk pw.pw_gid = true)
    (hU : sys.setuidOk pw.pw_uid = true) (hS : sys.setenvOk "PACMAN" "maw" = true)
    (hC : sys.callocOk (rest.length + 5) = true) (hM : sys.mallocOk (hackLen tmp) = true) :
    (main sys (prog :: tmp :: rest) p).2.trace =
      p.trace ++ [.getenv "SUDO_USER" (some u), .getpwnam u (some pw),
        .setgid pw.pw_gid 0, .setuid pw.pw_uid 0, .setenv "PACMAN" "maw" 1 0,
        .calloc (rest.length + 5) true, .malloc (hackLen tmp) true,
        .execvp "bash" ([some "bash", some "-c", some (bashStr tmp), some "makepkg"]
          ++ rest.map some ++ [none])] ∧
    (main sys (prog :: tmp :: rest) p).2.egid = pw.pw_gid ∧
    (main sys (prog :: tmp :: rest) p).2.euid = pw.pw_uid ∧
    (main sys (prog :: tmp :: rest) p).2.env "PACMAN" = some "maw" ∧
    (sys.execvpOk "bash" (["bash", "-c", bashStr tmp, "makepkg"] ++ rest) = true →
      (main sys (prog :: tmp :: rest) p).1 =
        .execed "bash" (["bash", "-c", bashStr tmp, "makepkg"] ++ rest)) ∧
    (sys.execvpOk "bash" (["bash", "-c", bashStr tmp, "makepkg"] ++ rest) = false →
      (main sys (prog :: tmp :: rest) p).1 = .exited 1) := by
  rcases main_cases sys prog tmp rest p with
    ⟨h, _⟩ | ⟨u', h, h', _⟩ | ⟨u', pw', h, h', hc⟩
  · simp [hE] at h
  · rw [hE] at h
    cases h
    simp [hD] at h'
  · rw [hE] at h
    cases h
    rw [hD] at h'
    cases h'
    rcases hc with ⟨h, _⟩ | ⟨_, h, _⟩ | ⟨_, _, h, _⟩ | ⟨_, _, _, h1, h2, h3, hc⟩
    · simp [hG] at h
    · simp [hU] at h
    · simp [hS] at h
    · rcases hc with ⟨h, _⟩ | ⟨_, h, _⟩ | ⟨_, _, h4, hc⟩
      · simp [hC] at h
      · simp [hM] at h
      · refine ⟨h4, h1, h2, h3, ?_, ?_⟩
        · intro hx
          rcases hc with ⟨h, _⟩ | ⟨_, h⟩
          · rw [hx] at h
            cases h
          · exact h
        · intro hx
          rcases hc with ⟨_, h⟩ | ⟨h, _⟩
          · exact h
          · rw [hx] at h
            cases h

/-! ## The privilege drop (claims C1, C2, C3) -/

/-- Claim C1. When SUDO_USER names a user of the database and `setgid`,
`setuid` and `setenv` succeed, `setupBuildEnv` returns, and the calls it made
are, in this order, the lookup of the user, `setgid` with the group id of the
user, `setuid` with the user id of the user and
`setenv ("PACMAN", "maw", 1)`; afterwards the effective group and user id
are those of the user and PACMAN is maw, whatever it was before. -/
theorem setupBuildEnv_drops_privileges (sys : System) (p : Proc) (sudoUser : String)
    (pw : Passwd) (hEnv : p.env "SUDO_USER" = some sudoUser)
    (hDb : sys.passwd sudoUser = some pw) (hGid : sys.setgidOk pw.pw_gid = true)
    (hUid : sys.setuidOk pw.pw_uid = true) (hSetenv : sys.setenvOk "PACMAN" "maw" = true) :
    (setupBuildEnv sys p).1 = .ok () ∧
    (setupBuildEnv sys p).2.trace = p.trace ++
      [.getenv "SUDO_USER" (some sudoUser), .getpwnam sudoUser (some pw),
       .setgid pw.pw_gid 0, .setuid pw.pw_uid 0, .setenv "PACMAN" "maw" 1 0] ∧
    (setupBuildEnv sys p).2.egid = pw.pw_gid ∧
    (setupBuildEnv sys p).2.euid = pw.pw_uid ∧
    (setupBuildEnv sys p).2.env "PACMAN" = some "maw" := by
  simp [setupBuildEnv, getSudoUserInfo, getenv, getpwnam, setgid, setuid, setenv, Proc.log,
    hEnv, hDb, hGid, hUid, hSetenv]

/-- Witness of C1: the run for alice, root before the call and with PACMAN
set to pacman. -/
theorem setupBuildEnv_drops_privileges_witness :
    aliceProc.env "PACMAN" = some "pacman" ∧ aliceProc.egid = 0 ∧ aliceProc.euid = 0 ∧
    (setupBuildEnv aliceSystem aliceProc).1 = .ok () ∧
    (setupBuildEnv aliceSystem aliceProc).2.trace = aliceProc.trace ++
      [.getenv "SUDO_USER" (some "alice"), .getpwnam "alice" (some ⟨"alice", 1000, 1000⟩),
       .setgid 1000 0, .setuid 1000 0, .setenv "PACMAN" "maw" 1 0] ∧
    (setupBuildEnv aliceSystem aliceProc).2.egid = 1000 ∧
    (setupBuildEnv aliceSystem aliceProc).2.euid = 1000 ∧
    (setupBuildEnv aliceSystem aliceProc).2.env "PACMAN" = some "maw" :=
  ⟨by decide, by decide, by decide,
    setupBuildEnv_drops_privileges aliceSystem aliceProc "alice" ⟨"alice", 1000, 1000⟩
      (by decide) (by decide) (by decide) (by decide) (by decide)⟩

/-- Claim C2. In every run, whatever the system calls return: after a failed
`setgid` there is no call of `setuid`, `setenv` or `execvp`; after a failed
`setuid` none of `setenv` or `execvp`; after a failed `setenv` none of
`execvp`; each time the program exits with status 1. A call of `execvp` is
the last call of the run and comes after a successful `setgid`, `setuid` and
`setenv`, in this order. The program never exits with status 0. -/
theorem main_aborts_on_first_error (sys : System) (argv : List String)
    (env : String → Option String) (egid euid : Nat) :
    (∀ gid, Call.setgid gid (-1) ∈ (run sys argv env egid euid).2.trace →
      (run sys argv env egid euid).1 = .exited 1 ∧
      ∀ c ∈ (run sys argv env egid euid).2.trace,
        c.isSetuid = false ∧ c.isSetenv = false ∧ c.isExecvp = false) ∧
    (∀ uid, Call.setuid uid (-1) ∈ (run sys argv env egid euid).2.trace →
      (run sys argv env egid euid).1 = .exited 1 ∧
      ∀ c ∈ (run sys argv env egid euid).2.trace,
        c.isSetenv = false ∧ c.isExecvp = false) ∧
    (∀ name value overwrite,
      Call.setenv name value overwrite (-1) ∈ (run sys argv env egid euid).2.trace →
      (run sys argv env egid euid).1 = .exited 1 ∧
      ∀ c ∈ (run sys argv env egid euid).2.trace, c.isExecvp = false) ∧
    (∀ file args, Call.execvp file args ∈ (run sys argv env egid euid).2.trace →
      ∃ before gid uid between,
        (run sys argv env egid euid).2.trace =
          before ++ [.setgid gid 0, .setuid uid 0, .setenv "PACMAN" "maw" 1 0] ++ between ++
            [.execvp file args]) ∧
    (run sys argv env egid euid).1 ≠ .exited 0 := by
  unfold run
  rcases argv with _ | ⟨prog, _ | ⟨tmp, rest⟩⟩
  · simp [main_noarg, Proc.start]
  · simp [main_noarg, Proc.start]
  · have hc := main_cases sys prog tmp rest (Proc.start env egid euid)
    have ht : (Proc.start env egid euid).trace = [] := rfl
    simp only [ht, List.nil_append] at hc
    generalize main sys (prog :: tmp :: rest) (Proc.start env egid euid) = q at hc ⊢
    rcases hc with ⟨_, h1, h2⟩ | ⟨u, _, _, h1, h2⟩ | ⟨u, pw, _, _, h⟩
    · simp [h1, h2, Call.isSetuid, Call.isSetenv, Call.isExecvp]
    · simp [h1, h2, Call.isSetuid, Call.isSetenv, Call.isExecvp]
    · rcases h with ⟨_, h1, h2⟩ | ⟨_, _, h1, h2⟩ | ⟨_, _, _, h1, h2⟩ | ⟨_, _, _, _, _, _, h⟩
      · simp [h1, h2, Call.isSetuid, Call.isSetenv, Call.isExecvp]
      · simp [h1, h2, Call.isSetuid, Call.isSetenv, Call.isExecvp]
      · simp [h1, h2, Call.isSetuid, Call.isSetenv, Call.isExecvp]
      · rcases h with ⟨_, h1, h2⟩ | ⟨_, _, h1, h2⟩ | ⟨_, _, h2, h⟩
        · simp [h1, h2, Call.isSetuid, Call.isSetenv, Call.isExecvp]
        · simp [h1, h2, Call.isSetuid, Call.isSetenv, Call.isExecvp]
        · have hshape : ∃ before gid uid between,
              q.2.trace =
                before ++ [.setgid gid 0, .setuid uid 0, .setenv "PACMAN" "maw" 1 0] ++ between ++
                  [.execvp "bash" ([some "bash", some "-c", some (bashStr tmp), some "makepkg"]
                    ++ rest.map some ++ [none])] :=
            ⟨[.getenv "SUDO_USER" (some u), .getpwnam u (some pw)], pw.pw_gid, pw.pw_uid,
              [.calloc (rest.length + 5) true, .malloc (hackLen tmp) true], by
                rw [h2]; simp⟩
          have hne : q.1 ≠ .exited 0 := by
            rcases h with ⟨_, h1⟩ | ⟨_, h1⟩ <;> simp [h1]
          refine ⟨?_, ?_, ?_, ?_, hne⟩
          · simp [h2]
          · simp [h2]
          · simp [h2]
          · intro file args hmem
            have : file = "bash" ∧ args = [some "bash", some "-c", some (bashStr tmp),
                some "makepkg"] ++ rest.map some ++ [none] := by
              simpa [h2] using hmem
            rw [this.1, this.2]; exact hshape

set_option maxRecDepth 100000 in
/-- Witness of C2: the runs for alice in which `setgid`, `setuid`, `setenv`
fail, and the run in which all calls succeed. -/
theorem main_aborts_on_first_error_witness :
    (Call.setgid 1000 (-1) ∈ (run setgidFails ["mawmakepkg", "out"] aliceEnv 0 0).2.trace ∧
      (run setgidFails ["mawmakepkg", "out"] aliceEnv 0 0).1 = .exited 1 ∧
      ∀ c ∈ (run setgidFails ["mawmakepkg", "out"] aliceEnv 0 0).2.trace,
        c.isSetuid = false ∧ c.isSetenv = false ∧ c.isExecvp = false) ∧
    (Call.setuid 1000 (-1) ∈ (run setuidFails ["mawmakepkg", "out"] aliceEnv 0 0).2.trace ∧
      (run setuidFails ["mawmakepkg", "out"] aliceEnv 0 0).1 = .exited 1 ∧
      ∀ c ∈ (run setuidFails ["mawmakepkg", "out"] aliceEnv 0 0).2.trace,
        c.isSetenv = false ∧ c.isExecvp = false) ∧
    (Call.setenv "PACMAN" "maw" 1 (-1) ∈
        (run setenvFails ["mawmakepkg", "out"] aliceEnv 0 0).2.trace ∧
      (run setenvFails ["mawmakepkg", "out"] aliceEnv 0 0).1 = .exited 1 ∧
      ∀ c ∈ (run setenvFails ["mawmakepkg", "out"] aliceEnv 0 0).2.trace, c.isExecvp = false) ∧
    (Call.execvp "bash" [some "bash", some "-c", some (bashStr "out"), some "makepkg", none] ∈
        (run aliceSystem ["mawmakepkg", "out"] aliceEnv 0 0).2.trace ∧
      ∃ before gid uid between,
        (run aliceSystem ["mawmakepkg", "out"] aliceEnv 0 0).2.trace =
          before ++ [.setgid gid 0, .setuid uid 0, .setenv "PACMAN" "maw" 1 0] ++ between ++
            [.execvp "bash" [some "bash", some "-c", some (bashStr "out"), some "makepkg",
              none]]) :=
  ⟨⟨by decide,
      (main_aborts_on_first_error setgidFails ["mawmakepkg", "out"] aliceEnv 0 0).1 1000
        (by decide)⟩,
    ⟨by decide,
      (main_aborts_on_first_error setuidFails ["mawmakepkg", "out"] aliceEnv 0 0).2.1 1000
        (by decide)⟩,
    ⟨by decide,
      (main_aborts_on_first_error setenvFails ["mawmakepkg", "out"] aliceEnv 0 0).2.2.1
        "PACMAN" "maw" 1 (by decide)⟩,
    ⟨by decide,
      (main_aborts_on_first_error aliceSystem ["mawmakepkg", "out"] aliceEnv 0 0).2.2.2.1
        "bash" [some "bash", some "-c", some (bashStr "out"), some "makepkg", none]
        (by decide)⟩⟩

/-- Claim C3. A run without the file argument exits with status 1 and makes
no call at all (SUDO_USER is not read). A run with the argument in which
SUDO_USER is unset, or names a user the database lacks, exits with status 1
after the lookup alone. In all three runs there is no call of `setgid`,
`setuid`, `setenv` or `execvp`, and the ids and the environment of the
process are what they were. -/
theorem main_rejects_bad_invocation (sys : System) (argv : List String)
    (env : String → Option String) (egid euid : Nat) :
    (argv.length < 2 →
      (run sys argv env egid euid).1 = .exited 1 ∧
      (run sys argv env egid euid).2.trace = []) ∧
    (2 ≤ argv.length → env "SUDO_USER" = none →
      (run sys argv env egid euid).1 = .exited 1 ∧
      (run sys argv env egid euid).2.trace = [.getenv "SUDO_USER" none]) ∧
    (2 ≤ argv.length → ∀ user, env "SUDO_USER" = some user → sys.passwd user = none →
      (run sys argv env egid euid).1 = .exited 1 ∧
      (run sys argv env egid euid).2.trace =
        [.getenv "SUDO_USER" (some user), .getpwnam user none]) ∧
    (argv.length < 2 ∨ env "SUDO_USER" = none ∨
        (∃ user, env "SUDO_USER" = some user ∧ sys.passwd user = none) →
      (run sys argv env egid euid).1 = .exited 1 ∧
      (∀ c ∈ (run sys argv env egid euid).2.trace,
        c.isSetgid = false ∧ c.isSetuid = false ∧ c.isSetenv = false ∧ c.isExecvp = false) ∧
      (run sys argv env egid euid).2.egid = egid ∧
      (run sys argv env egid euid).2.euid = euid ∧
      (run sys argv env egid euid).2.env = env) := by
  have h1 : argv.length < 2 → run sys argv env egid euid = (.exited 1, Proc.start env egid euid) :=
    fun h => main_noarg sys argv _ h
  have h2 : ¬ argv.length < 2 → env "SUDO_USER" = none →
      run sys argv env egid euid =
        (.exited 1, (Proc.start env egid euid).log (.getenv "SUDO_USER" none)) := by
    intro hlen hE
    simp [run, main, setupBuildEnv, getSudoUserInfo, getenv, Proc.log, Proc.start, error, hE, hlen]
  have h3 : ¬ argv.length < 2 → ∀ user, env "SUDO_USER" = some user → sys.passwd user = none →
      run sys argv env egid euid =
        (.exited 1, ((Proc.start env egid euid).log (.getenv "SUDO_USER" (some user))).log
          (.getpwnam user none)) := by
    intro hlen user hE hD
    simp [run, main, setupBuildEnv, getSudoUserInfo, getenv, getpwnam, Proc.log, Proc.start,
      error, hE, hD, hlen]
  refine ⟨?_, ?_, ?_, ?_⟩
  · intro h
    rw [h1 h]
    exact ⟨rfl, rfl⟩
  · intro h hE
    rw [h2 (by omega) hE]
    exact ⟨rfl, rfl⟩
  · intro h user hE hD
    rw [h3 (by omega) user hE hD]
    exact ⟨rfl, rfl⟩
  · intro h
    by_cases hlen : argv.length < 2
    · rw [h1 hlen]
      simp [Proc.start]
    · rcases h with h | hE | ⟨user, hE, hD⟩
      · exact absurd h hlen
      · rw [h2 hlen hE]
        simp [Proc.start, Proc.log, Call.isSetgid, Call.isSetuid, Call.isSetenv, Call.isExecvp]
      · rw [h3 hlen user hE hD]
        simp [Proc.start, Proc.log, Call.isSetgid, Call.isSetuid, Call.isSetenv, Call.isExecvp]

/-- Witness of C3: a run without the file argument, a run without
SUDO_USER, and a run for a user the database lacks. -/
theorem main_rejects_bad_invocation_witness :
    ((run aliceSystem ["mawmakepkg"] aliceEnv 0 0).1 = .exited 1 ∧
      (run aliceSystem ["mawmakepkg"] aliceEnv 0 0).2.trace = []) ∧
    ((run aliceSystem ["mawmakepkg", "out"] noSudoEnv 0 0).1 = .exited 1 ∧
      (run aliceSystem ["mawmakepkg", "out"] noSudoEnv 0 0).2.trace =
        [.getenv "SUDO_USER" none]) ∧
    ((run aliceSystem ["mawmakepkg", "out"] ghostEnv 0 0).1 = .exited 1 ∧
      (run aliceSystem ["mawmakepkg", "out"] ghostEnv 0 0).2.trace =
        [.getenv "SUDO_USER" (some "ghost"), .getpwnam "ghost" none]) ∧
    ((run aliceSystem ["mawmakepkg", "out"] ghostEnv 0 0).1 = .exited 1 ∧
      (∀ c ∈ (run aliceSystem ["mawmakepkg", "out"] ghostEnv 0 0).2.trace,
        c.isSetgid = false ∧ c.isSetuid = false ∧ c.isSetenv = false ∧ c.isExecvp = false) ∧
      (run aliceSystem ["mawmakepkg", "out"] ghostEnv 0 0).2.egid = 0 ∧
      (run aliceSystem ["mawmakepkg", "out"] ghostEnv 0 0).2.euid = 0 ∧
      (run aliceSystem ["mawmakepkg", "out"] ghostEnv 0 0).2.env = ghostEnv) :=
  ⟨(main_rejects_bad_invocation aliceSystem ["mawmakepkg"] aliceEnv 0 0).1 (by decide),
    (main_rejects_bad_invocation aliceSystem ["mawmakepkg", "out"] noSudoEnv 0 0).2.1
      (by decide) (by decide),
    (main_rejects_bad_invocation aliceSystem ["mawmakepkg", "out"] ghostEnv 0 0).2.2.1
      (by decide) "ghost" (by decide) (by decide),
    (main_rejects_bad_invocation aliceSystem ["mawmakepkg", "out"] ghostEnv 0 0).2.2.2
      (Or.inr (Or.inr ⟨"ghost", by decide, by decide⟩))⟩

/-! ## The argument vector (claims C4, C5) -/

/-- Claim C4. In a run with output-file path `p` and forwarded arguments
`a`, every call of `execvp` is `execvp ("bash", args)` where `args` holds
bash, -c, the hook for `p`, makepkg, the forwarded arguments in their order
and a final null pointer; the call is made as soon as the calls before it
succeed. The vector has `a.length + 4` entries and the forwarded arguments
start at index 4. By origin, the pointers stored are three string literals,
the buffer of `bashHack` and the elements `argv[2]`, `argv[3]`, ... of
`main`: the element `argv[1]`, the output-file path itself, is not one of
the entries. -/
theorem startMakepkg_argument_vector (sys : System) (prog p : String) (a : List String)
    (env : String → Option String) (egid euid : Nat) :
    (∀ file args, Call.execvp file args ∈ (run sys (prog :: p :: a) env egid euid).2.trace →
      file = "bash" ∧
      args = [some "bash", some "-c", some (bashStr p), some "makepkg"] ++ a.map some ++ [none]) ∧
    (∀ user pw, env "SUDO_USER" = some user → sys.passwd user = some pw →
      sys.setgidOk pw.pw_gid = true → sys.setuidOk pw.pw_uid = true →
      sys.setenvOk "PACMAN" "maw" = true → sys.callocOk (a.length + 5) = true →
      sys.mallocOk (hackLen p) = true →
      Call.execvp "bash"
          ([some "bash", some "-c", some (bashStr p), some "makepkg"] ++ a.map some ++ [none]) ∈
        (run sys (prog :: p :: a) env egid euid).2.trace ∧
      (sys.execvpOk "bash" (["bash", "-c", bashStr p, "makepkg"] ++ a) = true →
        (run sys (prog :: p :: a) env egid euid).1 =
          .execed "bash" (["bash", "-c", bashStr p, "makepkg"] ++ a))) ∧
    cArgv ([some "bash", some "-c", some (bashStr p), some "makepkg"] ++ a.map some ++ [none]) =
      ["bash", "-c", bashStr p, "makepkg"] ++ a ∧
    (["bash", "-c", bashStr p, "makepkg"] ++ a).length = a.length + 4 ∧
    (∀ i, i < a.length → (["bash", "-c", bashStr p, "makepkg"] ++ a)[i + 4]? = a[i]?) ∧
    mainArgOrigins (prog :: p :: a).length =
      [some (.literal "bash"), some (.literal "-c"), some .hack, some (.literal "makepkg")]
        ++ (List.range a.length).map (fun i => some (Origin.argv (i + 2))) ++ [none] ∧
    (mainArgOrigins (prog :: p :: a).length).map
        (fun o => o.bind (Origin.value p (prog :: p :: a))) =
      [some "bash", some "-c", some (bashStr p), some "makepkg"] ++ a.map some ++ [none] ∧
    some (Origin.argv 1) ∉ mainArgOrigins (prog :: p :: a).length := by
  refine ⟨?_, ?_, cArgv_args (bashStr p) a, ?_, ?_, mainArgOrigins_eq a.length,
    mainArgOrigins_value prog p a, ?_⟩
  · unfold run
    have hc := main_cases sys prog p a (Proc.start env egid euid)
    have ht : (Proc.start env egid euid).trace = [] := rfl
    simp only [ht, List.nil_append] at hc
    generalize main sys (prog :: p :: a) (Proc.start env egid euid) = q at hc ⊢
    intro file args
    rcases hc with ⟨_, _, h2⟩ | ⟨u, _, _, _, h2⟩ | ⟨u, pw, _, _, h⟩
    · simp [h2]
    · simp [h2]
    · rcases h with ⟨_, _, h2⟩ | ⟨_, _, _, h2⟩ | ⟨_, _, _, _, h2⟩ | ⟨_, _, _, _, _, _, h⟩
      · simp [h2]
      · simp [h2]
      · simp [h2]
      · rcases h with ⟨_, _, h2⟩ | ⟨_, _, _, h2⟩ | ⟨_, _, h2, _⟩
        · simp [h2]
        · simp [h2]
        · simp [h2]
  · intro user pw hE hD hG hU hS hC hM
    have hs := main_success sys prog p a (Proc.start env egid euid) user pw hE hD hG hU hS hC hM
    unfold run
    refine ⟨?_, hs.2.2.2.2.1⟩
    rw [hs.1]
    simp
  · simp
  · intro i _
    simp
  · have h := mainArgOrigins_eq a.length
    simp only [List.length_cons] at h ⊢
    rw [h]
    simp

set_option maxRecDepth 100000 in
/-- Witness of C4: the run `mawmakepkg out -s -i` for alice. -/
theorem startMakepkg_argument_vector_witness :
    Call.execvp "bash"
        [some "bash", some "-c", some (bashStr "out"), some "makepkg", some "-s", some "-i",
          none] ∈
      (run aliceSystem ["mawmakepkg", "out", "-s", "-i"] aliceEnv 0 0).2.trace ∧
    (run aliceSystem ["mawmakepkg", "out", "-s", "-i"] aliceEnv 0 0).1 =
      .execed "bash" ["bash", "-c", bashStr "out", "makepkg", "-s", "-i"] ∧
    ["bash", "-c", bashStr "out", "makepkg", "-s", "-i"][1 + 4]? = ["-s", "-i"][1]? ∧
    mainArgOrigins 4 =
      [some (.literal "bash"), some (.literal "-c"), some .hack, some (.literal "makepkg"),
        some (.argv 2), some (.argv 3), none] :=
  ⟨((startMakepkg_argument_vector aliceSystem "mawmakepkg" "out" ["-s", "-i"] aliceEnv 0
        0).2.1 "alice" ⟨"alice", 1000, 1000⟩ (by decide) (by decide) (by decide) (by decide)
        (by decide) (by decide) (by decide)).1,
    ((startMakepkg_argument_vector aliceSystem "mawmakepkg" "out" ["-s", "-i"] aliceEnv 0
        0).2.1 "alice" ⟨"alice", 1000, 1000⟩ (by decide) (by decide) (by decide) (by decide)
        (by decide) (by decide) (by decide)).2 (by decide),
    (startMakepkg_argument_vector aliceSystem "mawmakepkg" "out" ["-s", "-i"] aliceEnv 0
        0).2.2.2.2.1 1 (by decide),
    (startMakepkg_argument_vector aliceSystem "mawmakepkg" "out" ["-s", "-i"] aliceEnv 0
        0).2.2.2.2.2.1⟩

set_option maxRecDepth 100000 in
/-- Counterexample to C5 as stated: in the scenario the replaced process has
six arguments, but the one at index 3 is makepkg, not build. -/
theorem scenario_entry_three_is_makepkg :
    ∃ v, (run aliceSystem ["mawmakepkg", "tmp_out.txt", "build", "--flag"] aliceEnv 0 0).1 =
        .execed "bash" v ∧
      v.length = 6 ∧ v[3]? = some "makepkg" ∧
      ¬ (v[3]? = some "build" ∧ v[4]? = some "build") :=
  ⟨["bash", "-c", bashStr "tmp_out.txt", "makepkg", "build", "--flag"], by decide, by decide,
    by decide, by decide⟩

/-- Claim C5, amended. When the program is invoked with the arguments
`tmp_out.txt build --flag`, SUDO_USER names the account alice (uid 1000,
gid 1000) and every system call succeeds, the process is replaced by bash
with the six arguments bash, -c, the hook, makepkg, build, --flag: the entry
at index 3 is makepkg and the entry at index 4 is build. The hook contains
tmp_out.txt (once), and the process runs with group and user id 1000 and
PACMAN set to maw. -/
theorem scenario_argument_list (sys : System) (prog : String)
    (env : String → Option String) (egid euid : Nat)
    (hE : env "SUDO_USER" = some "alice")
    (hD : sys.passwd "alice" = some ⟨"alice", 1000, 1000⟩)
    (hG : sys.setgidOk 1000 = true) (hU : sys.setuidOk 1000 = true)
    (hS : sys.setenvOk "PACMAN" "maw" = true) (hC : sys.callocOk 7 = true)
    (hM : sys.mallocOk (hackLen "tmp_out.txt") = true)
    (hX : sys.execvpOk "bash"
      ["bash", "-c", bashStr "tmp_out.txt", "makepkg", "build", "--flag"] = true) :
    (run sys [prog, "tmp_out.txt", "build", "--flag"] env egid euid).1 =
      .execed "bash" ["bash", "-c", bashStr "tmp_out.txt", "makepkg", "build", "--flag"] ∧
    ["bash", "-c", bashStr "tmp_out.txt", "makepkg", "build", "--flag"].length = 6 ∧
    ["bash", "-c", bashStr "tmp_out.txt", "makepkg", "build", "--flag"][3]? = some "makepkg" ∧
    ["bash", "-c", bashStr "tmp_out.txt", "makepkg", "build", "--flag"][4]? = some "build" ∧
    ["bash", "-c", bashStr "tmp_out.txt", "makepkg", "build", "--flag"][5]? = some "--flag" ∧
    occurrences "tmp_out.txt".data (bashStr "tmp_out.txt").data = 1 ∧
    (run sys [prog, "tmp_out.txt", "build", "--flag"] env egid euid).2.egid = 1000 ∧
    (run sys [prog, "tmp_out.txt", "build", "--flag"] env egid euid).2.euid = 1000 ∧
    (run sys [prog, "tmp_out.txt", "build", "--flag"] env egid euid).2.env "PACMAN" =
      some "maw" := by
  have hs := main_success sys prog "tmp_out.txt" ["build", "--flag"] (Proc.start env egid euid)
    "alice" ⟨"alice", 1000, 1000⟩ hE hD hG hU hS hC hM
  have hocc : occurrences "tmp_out.txt".data (bashStr "tmp_out.txt").data = 1 := by
    rw [bashStr_eq]
    simp only [String.data_append]
    exact occurrences_eq_one '.' _ _ _ (by decide) (by decide) (by decide)
  exact ⟨hs.2.2.2.2.1 hX, rfl, rfl, rfl, rfl, hocc, hs.2.1, hs.2.2.1, hs.2.2.2.1⟩

/-- Witness of C5: the scenario on `aliceSystem`. -/
theorem scenario_argument_list_witness :
    (run aliceSystem ["mawmakepkg", "tmp_out.txt", "build", "--flag"] aliceEnv 0 0).1 =
      .execed "bash" ["bash", "-c", bashStr "tmp_out.txt", "makepkg", "build", "--flag"] ∧
    (run aliceSystem ["mawmakepkg", "tmp_out.txt", "build", "--flag"] aliceEnv 0 0).2.egid =
      1000 :=
  ⟨(scenario_argument_list aliceSystem "mawmakepkg" aliceEnv 0 0 (by decide) (by decide)
      (by decide) (by decide) (by decide) (by decide) (by decide) (by decide)).1,
    (scenario_argument_list aliceSystem "mawmakepkg" aliceEnv 0 0 (by decide) (by decide)
      (by decide) (by decide) (by decide) (by decide) (by decide)
      (by decide)).2.2.2.2.2.2.1⟩

/-! ## The hook string (claims C6, C10) -/

set_option maxRecDepth 1000000 in
/-- Counterexample to C6 as stated: the path pkgfile occurs four times in
the hook built for it, three times in the text of the template and once
where it was substituted. -/
theorem bashStr_path_occurs_four_times :
    occurrences "pkgfile".data (bashStr "pkgfile").data = 4 ∧
    occurrences "pkgfile".data (bashStr "pkgfile").data ≠ 1 := by
  decide

/-- Claim C6, amended. The template has a single `%s`, and the hook
`bashHack` returns for a path `p` is the text of the template before its
`%s`, then `p` unchanged, then the text after: nothing is escaped or quoted.
`p` occurs in the hook at the place of the `%s`, hence at least once; it
occurs exactly once when it has a character that does not occur in the
template. -/
theorem bashStr_template_substitution (p : String) :
    BASH_HACK_TEMPL = templHead ++ "%s" ++ templTail ∧
    occurrences "%s".data BASH_HACK_TEMPL.data = 1 ∧
    bashStr p = templHead ++ p ++ templTail ∧
    ((bashStr p).data.drop templHead.length).take p.length = p.data ∧
    1 ≤ occurrences p.data (bashStr p).data ∧
    (∀ c ∈ p.data, c ∉ BASH_HACK_TEMPL.data → occurrences p.data (bashStr p).data = 1) := by
  have hd : (bashStr p).data = templHead.data ++ p.data ++ templTail.data := by
    rw [bashStr_eq]; simp [String.data_append]
  have ht : BASH_HACK_TEMPL.data = templHead.data ++ "%s".data ++ templTail.data := by
    rw [templ_split]; simp [String.data_append]
  refine ⟨templ_split, ?_, bashStr_eq p, ?_, ?_, ?_⟩
  · rw [ht]
    exact occurrences_eq_one '%' _ _ _ (by decide) templHead_no_percent templTail_no_percent
  · have e₁ : templHead.length = templHead.data.length := rfl
    have e₂ : p.length = p.data.length := rfl
    rw [hd, List.append_assoc, e₁, List.drop_left, e₂, List.take_left]
  · rw [hd]
    exact occurrences_pos _ _ _
  · intro c hc hnot
    rw [ht] at hnot
    simp only [List.mem_append, not_or] at hnot
    rw [hd]
    exact occurrences_eq_one c _ _ _ hc hnot.1.1 hnot.2

set_option maxRecDepth 100000 in
/-- Witness of C6: the path tmp_out.txt, whose full stop does not occur in
the template. -/
theorem bashStr_template_substitution_witness :
    '.' ∈ "tmp_out.txt".data ∧ '.' ∉ BASH_HACK_TEMPL.data ∧
    occurrences "tmp_out.txt".data (bashStr "tmp_out.txt").data = 1 :=
  ⟨by decide, by decide,
    (bashStr_template_substitution "tmp_out.txt").2.2.2.2.2 '.' (by decide) (by decide)⟩

/-- The buffer of `bashHack` is one byte short for every file name. -/
theorem hackLen_succ_eq_sprintfBytes (p : String) :
    hackLen p + 1 = sprintfBytes BASH_HACK_TEMPL.data [p.data] := by
  rw [hackLen_eq, sprintfBytes_eq]
  omega

/-- Claim C10 fails on the code: for the path tmp_out.txt `bashHack`
allocates 370 bytes and `sprintf` stores 371, the 370 characters of the hook
and the terminating NUL, so the last byte is stored past the end of the
buffer. -/
theorem bashHack_buffer_one_byte_short :
    hackLen "tmp_out.txt" = 370 ∧
    sprintfBytes BASH_HACK_TEMPL.data ["tmp_out.txt".data] = 371 ∧
    ¬ (sprintfBytes BASH_HACK_TEMPL.data ["tmp_out.txt".data] ≤ hackLen "tmp_out.txt") := by
  have h := hackLen_succ_eq_sprintfBytes "tmp_out.txt"
  have h0 : hackLen "tmp_out.txt" = 370 := by
    rw [hackLen_eq]; rfl
  rw [h0] at h
  exact ⟨h0, h.symm, by omega⟩

/-! ## The hook function (claims C7, C8, C9) -/

set_option maxRecDepth 100000 in
/-- Counterexample to C7 as stated: called with the non-zero code 256 the
function `exit` of the hook ends the shell with status 0, not 256; called
with 9223372036854775808, which `[` does not read as a number, it goes on as
after a successful build, appends the artifact of foo and ends with
status 0. -/
theorem exit_status_is_not_the_code :
    exit fooShell "out" "256" = some { file := "out", appended := [], status := 0 } ∧
    exit fooShell "out" "9223372036854775808" =
      some { file := "out", appended := ["/pkgs/foo-1.0-1-x86_64.pkg.tar.xz"], status := 0 } := by
  decide

/-- Claim C7, amended. Called with an exit code `c` from 1 to 255, the
function `exit` of the hook appends nothing to the output file and ends the
shell with status `c`, for every package list, architecture and set of files
on disk (and every output-file path of plain words, for which the text of
the hook is modelled). More generally, for a first argument that is one word
and that bash reads as a non-zero 64-bit integer `n`, nothing is appended
and the status is the low eight bits of `n`. -/
theorem exit_nonzero_appends_nothing (sh : Shell) (path file : String) (extra : List String)
    (hpath : redirect path = some (file, extra)) :
    (∀ c : Nat, 0 < c → c < 256 →
      exit sh path (toString c) = some { file := file, appended := [], status := c }) ∧
    (∀ arg1 n, legalNumber arg1 = some n → n ≠ 0 → expand sh arg1 = [arg1] →
      exit sh path arg1 = some { file := file, appended := [], status := (n % 256).toNat }) := by
  refine ⟨?_, fun arg1 n hn h0 hw => exit_nonzero sh path file extra hpath arg1 n hn h0 hw⟩
  intro c h0 h1
  obtain ⟨hn, hf, hg⟩ := decimal_text c h1
  have hw : expand sh (toString c) = [toString c] := by
    simp [expand, hf, hg]
  have h := exit_nonzero sh path file extra hpath (toString c) (c : Int) hn (by omega) hw
  have hs : ((c : Int) % 256).toNat = c := by omega
  rw [h, hs]

/-- Witness of C7: the build of foo failing with code 3. -/
theorem exit_nonzero_appends_nothing_witness :
    exit fooShell "out" "3" = some { file := "out", appended := [], status := 3 } :=
  (exit_nonzero_appends_nothing fooShell "out" "out" [] (by decide)).1 3 (by decide) (by decide)

end Maw
